import Mathlib

/-
Shallow embedding of `src/app.py` (Concur Expense Tax Code Checker).

The program is a pandas pipeline of three pure functions:
  * `parse_concur_report` : normalizes an expense table into six fixed
    columns, numerically coercing `Amount` and `Tax` (`pd.to_numeric`
    with `errors='coerce'`, unparseable values become NaN), then drops
    rows whose `Amount` is NaN.
  * `parse_tax_config` : iterates the configuration rows in order,
    mapping the key `(category, country)` (with NaN replaced by Python
    `None`) to the row's rate, later rows overwriting earlier ones.
  * `analyze_vat` : for each expense record, looks the key up in the
    dictionary; a missing key emits a "Missing tax code" message, a
    present key compares `abs(tax - amount*rate) > 0.01` and emits a
    "Potential tax code mismatch" message with the expected tax
    formatted to two decimals.

Modelling decisions:
  * A cell value is `Value`: a string, an exact rational (modelling a
    Python float), or `na` (modelling pandas/NumPy NaN).  Python `None`
    appears only inside dictionary keys, as `KeyPart.pyNone`.
  * Python float arithmetic is modelled with exact rationals; NaN
    propagation (`nan * x = nan`, `nan > c = False`, `nan != nan`) is
    modelled explicitly by `PyNum` and `valEq`.
  * A table is a column-name list plus rows of (column, value) pairs;
    a dataframe column selection fails when the named column is absent,
    matching the `KeyError` raised by pandas.
-/

namespace ConcurCheck

/-- A cell value of a loaded dataframe: a string, a number (Python float,
modelled exactly by a rational), or the missing value NaN. -/
inductive Value where
  | str (s : String)
  | num (q : ℚ)
  | na
deriving DecidableEq, Repr

/-- A dataframe row: association list from column name to cell value.
A column absent from the row reads as NaN (blank cell). -/
abbrev Row := List (String × Value)

/-- A loaded dataframe: its column names and its rows in order. -/
structure Table where
  cols : List String
  rows : List Row
deriving DecidableEq, Repr

/-- Read the cell of `row` in column `c`; a blank/absent cell is NaN. -/
def getCell (row : Row) (c : String) : Value :=
  (List.lookup c row).getD Value.na

/-- `row[c]` on a pandas `iterrows` row: raises `KeyError` when `c` is not a
column of the dataframe, otherwise yields the cell. -/
def getCellE (cols : List String) (row : Row) (c : String) : Except String Value :=
  if c ∈ cols then .ok (getCell row c) else .error c

/-- Numeric value of a digit character, if it is one. -/
def digitVal (c : Char) : Option Nat :=
  if c.isDigit then some (c.toNat - 48) else none

/-- Parse a nonempty list of digit characters as a natural number. -/
def parseDigits : List Char → Option Nat
  | [] => none
  | cs => cs.foldlM (fun acc c => (digitVal c).map (fun d => acc * 10 + d)) 0

/-- Decimal-literal grammar of `pd.to_numeric` on strings (the common
subset: optional sign, integer digits, optional fractional digits).
Strings outside this grammar fail numeric coercion. -/
def strToRat (s : String) : Option ℚ :=
  let cs := s.data
  let signed : Bool × List Char :=
    match cs with
    | '-' :: rest => (true, rest)
    | '+' :: rest => (false, rest)
    | _ => (false, cs)
  let intPart := signed.2.takeWhile (fun c => c ≠ '.')
  let rest := signed.2.dropWhile (fun c => c ≠ '.')
  let mag : Option ℚ :=
    match rest with
    | [] => (parseDigits intPart).map (fun n => (n : ℚ))
    | '.' :: fracPart =>
      match parseDigits intPart, parseDigits fracPart with
      | some i, some f => some ((i : ℚ) + (f : ℚ) / (10 : ℚ) ^ fracPart.length)
      | _, _ => none
    | _ => none
  mag.map (fun q => if signed.1 then -q else q)

/-- `pd.to_numeric(v, errors='coerce')` on one cell: numbers pass through,
numeric strings parse, everything else (including NaN) becomes NaN. -/
def toNumeric : Value → Value
  | .num q => .num q
  | .na => .na
  | .str s =>
    match strToRat s with
    | some q => .num q
    | none => .na

/-- One normalized expense row, with the six fixed fields produced by
`parse_concur_report`. -/
structure ExpenseRecord where
  expense : Value
  amount : Value
  tax : Value
  category : Value
  country : Value
  currency : Value
deriving DecidableEq, Repr

/-- Build the normalized record of one source row (the dataframe literal of
`parse_concur_report`, before `dropna`). -/
def mkRecord (row : Row) (expense_col amount_col tax_col category_col country_col currency_col : String) :
    ExpenseRecord :=
  { expense := getCell row expense_col
    amount := toNumeric (getCell row amount_col)
    tax := toNumeric (getCell row tax_col)
    category := getCell row category_col
    country := getCell row country_col
    currency := getCell row currency_col }

/-- `parse_concur_report` of src/app.py: selecting a missing column raises
`KeyError` (the first of the six accesses, in the dataframe-literal order);
otherwise every row is normalized and rows whose coerced `Amount` is NaN
are dropped (`df.dropna(subset=["Amount"])`). -/
def parse_concur_report (data : Table) (expense_col amount_col tax_col category_col country_col currency_col : String) :
    Except String (List ExpenseRecord) :=
  match [expense_col, amount_col, tax_col, category_col, country_col, currency_col].find?
      (fun c => ! data.cols.contains c) with
  | some c => .error c
  | none =>
    .ok ((data.rows.map
        (fun row => mkRecord row expense_col amount_col tax_col category_col country_col currency_col)).filter
      (fun rec => rec.amount != Value.na))

/-- One component of a dictionary key `(category, country)`: either Python
`None` (substituted for NaN by `parse_tax_config`) or a cell value. -/
inductive KeyPart where
  | pyNone
  | val (v : Value)
deriving DecidableEq, Repr

/-- A dictionary key `(category, country)`. -/
abbrev RateKey := KeyPart × KeyPart

/-- Python `==` on cell values: strings and numbers compare structurally,
`nan == nan` is `False`, and values of different kinds are unequal. -/
def valEq : Value → Value → Bool
  | .str a, .str b => decide (a = b)
  | .num a, .num b => decide (a = b)
  | _, _ => false

/-- Python `==` on key components: `None == None` is `True`, a `None`
never equals a cell value, cell values compare with `valEq`. -/
def partEq : KeyPart → KeyPart → Bool
  | .pyNone, .pyNone => true
  | .val a, .val b => valEq a b
  | _, _ => false

/-- Python `==` on the `(category, country)` key tuples. -/
def keyEq (a b : RateKey) : Bool :=
  partEq a.1 b.1 && partEq a.2 b.2

/-- `d[k] = v` on a Python dict (insertion ordered): a key already present
(under `==`) keeps its position and takes the new value, a new key is
appended. -/
def dictInsert (d : List (RateKey × Value)) (k : RateKey) (v : Value) :
    List (RateKey × Value) :=
  if d.any (fun e => keyEq e.1 k) then
    d.map (fun e => if keyEq e.1 k then (e.1, v) else e)
  else
    d ++ [(k, v)]

/-- `d.get(k)` on a Python dict: the value of the entry whose key compares
equal under `==`, if any. -/
def dictGet (d : List (RateKey × Value)) (k : RateKey) : Option Value :=
  (d.find? (fun e => keyEq e.1 k)).map (fun e => e.2)

/-- `pd.isna` on one cell. -/
def isna : Value → Bool
  | .na => true
  | _ => false

/-- The `if pd.isna(x): x = None` normalization applied by
`parse_tax_config` to the category and country of each row. -/
def normPart (v : Value) : KeyPart :=
  if isna v then KeyPart.pyNone else KeyPart.val v

/-- The dictionary key produced from one configuration row. -/
def rowKey (row : Row) (category_col country_col : String) : RateKey :=
  (normPart (getCell row category_col), normPart (getCell row country_col))

/-- The body of the `parse_tax_config` loop for one row: reads the four
cells (`row[col]` raising on an absent column; the tax code is read but
unused) and stores the rate under `(category, country)`. -/
def taxStep (cols : List String) (code_col rate_col category_col country_col : String)
    (d : List (RateKey × Value)) (row : Row) : Except String (List (RateKey × Value)) := do
  let _code ← getCellE cols row code_col
  let rate ← getCellE cols row rate_col
  let category ← getCellE cols row category_col
  let country ← getCellE cols row country_col
  .ok (dictInsert d (normPart category, normPart country) rate)

/-- `parse_tax_config` of src/app.py: folds `taxStep` over the rows in
source order starting from the empty dict.  Column accesses happen inside
the loop, so a table with no rows never raises. -/
def parse_tax_config (data : Table) (code_col rate_col category_col country_col : String) :
    Except String (List (RateKey × Value)) :=
  data.rows.foldlM (taxStep data.cols code_col rate_col category_col country_col) []

/-- A Python float: an exact number or NaN. -/
inductive PyNum where
  | num (q : ℚ)
  | nan
deriving DecidableEq, Repr

/-- View a cell as a Python float for arithmetic: numbers and NaN qualify,
a string does not (arithmetic on it raises `TypeError`). -/
def toPyNum : Value → Option PyNum
  | .num q => some (.num q)
  | .na => some .nan
  | .str _ => none

/-- Float multiplication; NaN propagates. -/
def pyMul : PyNum → PyNum → PyNum
  | .num a, .num b => .num (a * b)
  | _, _ => .nan

/-- Float subtraction; NaN propagates. -/
def pySub : PyNum → PyNum → PyNum
  | .num a, .num b => .num (a - b)
  | _, _ => .nan

/-- Python `abs`; NaN propagates. -/
def pyAbs : PyNum → PyNum
  | .num a => .num |a|
  | .nan => .nan

/-- `x > c` on a float and a constant: every comparison with NaN is
`False`. -/
def pyGtC (x : PyNum) (c : ℚ) : Bool :=
  match x with
  | .num a => decide (c < a)
  | .nan => false

/-- Render a natural number below 100 as exactly two digit characters. -/
def pad2 (m : Nat) : List Char :=
  [Nat.digitChar (m / 10 % 10), Nat.digitChar (m % 10)]

/-- Python's `f"{x:.2f}"` on a float value, modelled over rationals:
round `x*100` to the nearest integer and print with exactly two digits
after the decimal point. -/
def fmt2 (q : ℚ) : String :=
  let n : ℤ := round (q * 100)
  String.mk ((if n < 0 then ['-'] else []) ++ (toString (n.natAbs / 100)).data ++ ['.'] ++ pad2 (n.natAbs % 100))

/-- Whether a string ends in a decimal point followed by exactly two
digits (i.e. is rendered to exactly two decimal places). -/
def twoDecimalsB (s : String) : Bool :=
  match s.data.reverse with
  | c0 :: c1 :: c2 :: _ => c0.isDigit && c1.isDigit && decide (c2 = '.')
  | _ => false

/-- Python `str()`/f-string interpolation of a cell value. -/
def fmtValue : Value → String
  | .str s => s
  | .num q => toString q
  | .na => "nan"

/-- The issue text emitted (or not) by one iteration of the `analyze_vat`
loop: a missing key emits the "Missing tax code" message; a present key
computes `expected_tax = amount * rate` and compares
`abs(tax - expected_tax) > 0.01`, emitting the "Potential tax code
mismatch" message on excess.  Arithmetic on a string raises `TypeError`
(`.error`). -/
def recordIssue (tax_config : List (RateKey × Value)) (rec : ExpenseRecord) :
    Except Unit (Option String) :=
  match dictGet tax_config (KeyPart.val rec.category, KeyPart.val rec.country) with
  | none => .ok (some ("Missing tax code for expense: " ++ fmtValue rec.expense))
  | some rateV =>
    match toPyNum rec.amount, toPyNum rateV, toPyNum rec.tax with
    | some a, some r, some t =>
      if pyGtC (pyAbs (pySub t (pyMul a r))) (1 / 100) then
        .ok (some ("Potential tax code mismatch for expense: " ++ fmtValue rec.expense
          ++ ", expected tax: " ++
          (match pyMul a r with
           | .num e => fmt2 e
           | .nan => "nan")))
      else
        .ok none
    | _, _, _ => .error ()

/-- `analyze_vat` of src/app.py: one pass over the records in order,
appending each record's issue (if any) to the output list; a `TypeError`
mid-loop aborts the whole run. -/
def analyze_vat (expense_data : List ExpenseRecord) (tax_config : List (RateKey × Value)) :
    Except Unit (List String) :=
  match expense_data with
  | [] => .ok []
  | rec :: rest => do
    let issue ← recordIssue tax_config rec
    let others ← analyze_vat rest tax_config
    .ok (issue.toList ++ others)

/-! Concrete fixtures used by the witness theorems. -/

/-- Mismatch scenario record: Hotel, amount 100, tax 20, Lodging/DE. -/
def hotelRec : ExpenseRecord :=
  { expense := Value.str "Hotel", amount := Value.num 100, tax := Value.num 20,
    category := Value.str "Lodging", country := Value.str "DE", currency := Value.str "EUR" }

/-- Rate table holding 19% for (Lodging, DE). -/
def lodgingCfg : List (RateKey × Value) :=
  [((KeyPart.val (Value.str "Lodging"), KeyPart.val (Value.str "DE")), Value.num (19 / 100))]

/-- Missing-rule scenario record: Lunch, Meal/FR. -/
def mealRec : ExpenseRecord :=
  { expense := Value.str "Lunch", amount := Value.num 50, tax := Value.num 5,
    category := Value.str "Meal", country := Value.str "FR", currency := Value.str "EUR" }

/-- Unparseable-tax scenario record: Taxi, amount 30, tax NaN, Travel/DE. -/
def taxiRec : ExpenseRecord :=
  { expense := Value.str "Taxi", amount := Value.num 30, tax := Value.na,
    category := Value.str "Travel", country := Value.str "DE", currency := Value.str "EUR" }

/-- Rate table holding 7% for (Travel, DE). -/
def travelCfg : List (RateKey × Value) :=
  [((KeyPart.val (Value.str "Travel"), KeyPart.val (Value.str "DE")), Value.num (7 / 100))]

/-- The six default report column names. -/
def reportCols : List String :=
  ["Expense", "Amount", "Tax", "Category", "Country", "Currency"]

/-- Report with one good row and one row whose amount is unparseable. -/
def amountTable : Table :=
  { cols := reportCols
    rows := [[("Expense", Value.str "Hotel"), ("Amount", Value.num 100), ("Tax", Value.num 19),
              ("Category", Value.str "Lodging"), ("Country", Value.str "DE"), ("Currency", Value.str "EUR")],
             [("Expense", Value.str "Bad"), ("Amount", Value.str "oops"), ("Tax", Value.num 1),
              ("Category", Value.str "Misc"), ("Country", Value.str "DE"), ("Currency", Value.str "EUR")]] }

/-- The single record retained from `amountTable`. -/
def hotelKept : ExpenseRecord :=
  { expense := Value.str "Hotel", amount := Value.num 100, tax := Value.num 19,
    category := Value.str "Lodging", country := Value.str "DE", currency := Value.str "EUR" }

/-- The records retained from `amountTable`. -/
def amountRecs : List ExpenseRecord :=
  [hotelKept]

/-- A report row whose tax is unparseable but whose amount parses. -/
def trainRow : Row :=
  [("Expense", Value.str "Train"), ("Amount", Value.str "12.5"), ("Tax", Value.str "abc"),
   ("Category", Value.str "Travel"), ("Country", Value.str "FR"), ("Currency", Value.str "EUR")]

/-- Report holding only `trainRow`. -/
def trainTable : Table :=
  { cols := reportCols, rows := [trainRow] }

/-- The records retained from `trainTable`. -/
def trainRecs : List ExpenseRecord :=
  [{ expense := Value.str "Train", amount := Value.num (25 / 2), tax := Value.na,
     category := Value.str "Travel", country := Value.str "FR", currency := Value.str "EUR" }]

/-- A key component whose cell is not NaN (keys stored by
`parse_tax_config` always satisfy this, NaN having been replaced by
`None`). -/
def partNaFree (p : KeyPart) : Prop :=
  p ≠ KeyPart.val Value.na

/-- A dictionary key free of NaN components. -/
def keyNaFree (k : RateKey) : Prop :=
  partNaFree k.1 ∧ partNaFree k.2

/-- The four default configuration column names. -/
def configCols : List String :=
  ["TaxCode", "TaxRate", "Category", "Country"]

/-- Three-row report: a Meal/FR row with no rule, a row dropped for its
unparseable amount, and a Lodging/DE row whose tax matches the rule. -/
def orderTable : Table :=
  { cols := reportCols
    rows := [[("Expense", Value.str "Lunch"), ("Amount", Value.num 50), ("Tax", Value.num 5),
              ("Category", Value.str "Meal"), ("Country", Value.str "FR"), ("Currency", Value.str "EUR")],
             [("Expense", Value.str "Bad"), ("Amount", Value.str "oops"), ("Tax", Value.num 1),
              ("Category", Value.str "Misc"), ("Country", Value.str "DE"), ("Currency", Value.str "EUR")],
             [("Expense", Value.str "Hotel"), ("Amount", Value.num 100), ("Tax", Value.num 19),
              ("Category", Value.str "Lodging"), ("Country", Value.str "DE"), ("Currency", Value.str "EUR")]] }

/-- The records retained from `orderTable`, in source order. -/
def orderRecs : List ExpenseRecord :=
  [{ expense := Value.str "Lunch", amount := Value.num 50, tax := Value.num 5,
     category := Value.str "Meal", country := Value.str "FR", currency := Value.str "EUR" },
   { expense := Value.str "Hotel", amount := Value.num 100, tax := Value.num 19,
     category := Value.str "Lodging", country := Value.str "DE", currency := Value.str "EUR" }]

/-- Per-record issue selector used to instantiate the order theorem on
`lodgingCfg`. -/
def issueOf (rec : ExpenseRecord) : Option String :=
  match recordIssue lodgingCfg rec with
  | .ok o => o
  | .error _ => none

/-- Configuration with two rows carrying the same (Meals, FR) key and
different rates. -/
def dupConfigTable : Table :=
  { cols := configCols
    rows := [[("TaxCode", Value.str "FR20"), ("TaxRate", Value.num (1 / 5)),
              ("Category", Value.str "Meals"), ("Country", Value.str "FR")],
             [("TaxCode", Value.str "FR10"), ("TaxRate", Value.num (1 / 10)),
              ("Category", Value.str "Meals"), ("Country", Value.str "FR")]] }

/-- The dictionary built from `dupConfigTable`: only the later rate
survives. -/
def dupConfigDict : List (RateKey × Value) :=
  [((KeyPart.val (Value.str "Meals"), KeyPart.val (Value.str "FR")), Value.num (1 / 10))]

/-- Two rows of a source row agree on every column except the given one. -/
def RowsAgreeExcept (code_col : String) (r₁ r₂ : Row) : Prop :=
  ∀ c, c ≠ code_col → getCell r₁ c = getCell r₂ c

/-- Configuration table whose only row carries tax code "A". -/
def codeTableA : Table :=
  { cols := configCols
    rows := [[("TaxCode", Value.str "A"), ("TaxRate", Value.num (1 / 5)),
              ("Category", Value.str "Meals"), ("Country", Value.str "FR")]] }

/-- Same table as `codeTableA` except the tax code value is "B". -/
def codeTableB : Table :=
  { cols := configCols
    rows := [[("TaxCode", Value.str "B"), ("TaxRate", Value.num (1 / 5)),
              ("Category", Value.str "Meals"), ("Country", Value.str "FR")]] }

/-- Report whose only row has a blank (NaN) Category and country DE; its
tax equals amount * 0.19 exactly. -/
def blankCatReport : Table :=
  { cols := reportCols
    rows := [[("Expense", Value.str "Hotel"), ("Amount", Value.num 100), ("Tax", Value.num 19),
              ("Category", Value.na), ("Country", Value.str "DE"), ("Currency", Value.str "EUR")]] }

/-- Configuration whose only row has a blank (NaN) Category and country
DE, i.e. it is stored under the key `(None, "DE")`. -/
def blankCatConfig : Table :=
  { cols := configCols
    rows := [[("TaxCode", Value.str "DE19"), ("TaxRate", Value.num (19 / 100)),
              ("Category", Value.na), ("Country", Value.str "DE")]] }

/-- The record normalized from `blankCatReport`: its category stays NaN
(`parse_concur_report` performs no NaN-to-None substitution). -/
def blankCatRec : ExpenseRecord :=
  { expense := Value.str "Hotel", amount := Value.num 100, tax := Value.num 19,
    category := Value.na, country := Value.str "DE", currency := Value.str "EUR" }

/-- The dictionary built from `blankCatConfig`. -/
def blankCatDict : List (RateKey × Value) :=
  [((KeyPart.pyNone, KeyPart.val (Value.str "DE")), Value.num (19 / 100))]

end ConcurCheck

deriving instance DecidableEq for Except

namespace ConcurCheck

/-! Helper lemmas. -/

theorem analyze_vat_singleton (cfg : List (RateKey × Value)) (rec : ExpenseRecord) :
    analyze_vat [rec] cfg =
      match recordIssue cfg rec with
      | .ok o => .ok o.toList
      | .error e => .error e := by
  cases h : recordIssue cfg rec <;>
    simp [analyze_vat, h, Bind.bind, Except.bind]

theorem digitChar_mod_isDigit (m : Nat) : (Nat.digitChar (m % 10)).isDigit = true := by
  have h : m % 10 < 10 := Nat.mod_lt _ (by norm_num)
  have hball : ∀ k : Nat, k < 10 → (Nat.digitChar k).isDigit = true := by decide
  exact hball _ h

theorem fmt2_twoDecimals (q : ℚ) : twoDecimalsB (fmt2 q) = true := by
  unfold fmt2 twoDecimalsB pad2
  simp [List.reverse_append, digitChar_mod_isDigit]

/-- C1: for an expense record with numeric amount and tax whose
(category, country) key maps to a numeric rate, `analyze_vat` emits no
issue when `|tax - amount*rate| <= 0.01`, and emits exactly one
"Potential tax code mismatch" issue carrying the expected tax formatted
to exactly two decimal digits when `|tax - amount*rate| > 0.01`. -/
theorem vat_tolerance_behaviour (cfg : List (RateKey × Value)) (rec : ExpenseRecord)
    (a r t : ℚ)
    (ha : rec.amount = Value.num a) (ht : rec.tax = Value.num t)
    (hr : dictGet cfg (KeyPart.val rec.category, KeyPart.val rec.country) = some (Value.num r)) :
    (|t - a * r| ≤ 1 / 100 → analyze_vat [rec] cfg = .ok []) ∧
    (1 / 100 < |t - a * r| →
      analyze_vat [rec] cfg = .ok
        ["Potential tax code mismatch for expense: " ++ fmtValue rec.expense
          ++ ", expected tax: " ++ fmt2 (a * r)] ∧
      twoDecimalsB (fmt2 (a * r)) = true) := by
  constructor
  · intro hle
    have hle2 : ¬ ((100 : ℚ)⁻¹ < |t - a * r|) := by
      rw [← one_div]; exact not_lt.mpr hle
    simp [analyze_vat_singleton, recordIssue, hr, ha, ht, toPyNum, pyMul, pySub, pyAbs,
      pyGtC, hle2]
  · intro hgt
    have hgt2 : (100 : ℚ)⁻¹ < |t - a * r| := by
      rw [← one_div]; exact hgt
    refine ⟨?_, fmt2_twoDecimals _⟩
    simp [analyze_vat_singleton, recordIssue, hr, ha, ht, toPyNum, pyMul, pySub, pyAbs,
      pyGtC, hgt2]

/-- Witness for C1: the spec scenario (Hotel, amount 100, tax 20, 19%
rate) exceeds the tolerance and produces exactly the expected message. -/
theorem vat_tolerance_behaviour_witness :
    analyze_vat [hotelRec] lodgingCfg =
      .ok ["Potential tax code mismatch for expense: Hotel, expected tax: 19.00"] := by
  have h := vat_tolerance_behaviour lodgingCfg hotelRec 100 (19 / 100) 20 rfl rfl
    (by with_unfolding_all decide)
  have h2 := (h.2 (by norm_num)).1
  refine h2.trans ?_
  with_unfolding_all decide

/-- C2: for an expense record whose (category, country) key is absent
from the rate table, `analyze_vat` emits exactly one issue of the form
"Missing tax code for expense: {expense}", containing the record's
expense description verbatim. -/
theorem vat_missing_code_behaviour (cfg : List (RateKey × Value)) (rec : ExpenseRecord)
    (s : String) (hs : rec.expense = Value.str s)
    (h : dictGet cfg (KeyPart.val rec.category, KeyPart.val rec.country) = none) :
    analyze_vat [rec] cfg = .ok ["Missing tax code for expense: " ++ s] := by
  simp [analyze_vat_singleton, recordIssue, h, hs, fmtValue]

/-- Witness for C2: the Meal/FR record with an empty rate table produces
exactly the missing-code message. -/
theorem vat_missing_code_behaviour_witness :
    analyze_vat [mealRec] [] = .ok ["Missing tax code for expense: Lunch"] := by
  have h := vat_missing_code_behaviour [] mealRec "Lunch" rfl (by with_unfolding_all decide)
  exact h

/-- C10: a retained record whose tax failed numeric coercion (is NaN)
but whose key maps to a numeric rate produces no issue: the comparison
`abs(tax - expected_tax) > 0.01` is `False` on NaN. -/
theorem vat_nan_tax_silent (cfg : List (RateKey × Value)) (rec : ExpenseRecord)
    (a r : ℚ)
    (ha : rec.amount = Value.num a) (ht : rec.tax = Value.na)
    (hr : dictGet cfg (KeyPart.val rec.category, KeyPart.val rec.country) = some (Value.num r)) :
    analyze_vat [rec] cfg = .ok [] := by
  simp [analyze_vat_singleton, recordIssue, hr, ha, ht, toPyNum, pyMul, pySub, pyAbs, pyGtC]

/-- Witness for C10: the Taxi record with NaN tax and a matching 7% rule
produces no issue. -/
theorem vat_nan_tax_silent_witness :
    analyze_vat [taxiRec] travelCfg = .ok [] := by
  exact vat_nan_tax_silent travelCfg taxiRec 30 (7 / 100) rfl rfl (by with_unfolding_all decide)

theorem toNumeric_na_or_num (v : Value) :
    toNumeric v = Value.na ∨ ∃ q, toNumeric v = Value.num q := by
  cases v with
  | str s =>
    cases h : strToRat s with
    | none => exact Or.inl (by simp [toNumeric, h])
    | some q => exact Or.inr ⟨q, by simp [toNumeric, h]⟩
  | num q => exact Or.inr ⟨q, rfl⟩
  | na => exact Or.inl rfl

/-- C4: every record in a successful output of `parse_concur_report` has
a valid numeric amount; rows whose amount fails numeric coercion were
removed by the `dropna` step. -/
theorem report_amount_invariant (data : Table)
    (expense_col amount_col tax_col category_col country_col currency_col : String)
    (recs : List ExpenseRecord)
    (h : parse_concur_report data expense_col amount_col tax_col category_col country_col currency_col
      = .ok recs) :
    ∀ rec ∈ recs, ∃ q, rec.amount = Value.num q := by
  unfold parse_concur_report at h
  split at h
  · exact absurd h (by simp)
  · injection h with h2
    intro rec hrec
    rw [← h2, List.mem_filter] at hrec
    obtain ⟨hmem, hpred⟩ := hrec
    obtain ⟨row, _hrow, hrec2⟩ := List.mem_map.mp hmem
    rcases toNumeric_na_or_num (getCell row amount_col) with hna | ⟨q, hq⟩
    · exfalso
      have hne : rec.amount ≠ Value.na := by simpa [bne_iff_ne] using hpred
      apply hne
      rw [← hrec2]
      simpa [mkRecord] using hna
    · exact ⟨q, by rw [← hrec2]; simpa [mkRecord] using hq⟩

/-- Witness for C4: on a table with one parseable and one unparseable
amount, the retained record has a numeric amount. -/
theorem report_amount_invariant_witness :
    ∃ q, hotelKept.amount = Value.num q := by
  exact report_amount_invariant amountTable "Expense" "Amount" "Tax" "Category" "Country" "Currency"
    amountRecs (by with_unfolding_all decide) hotelKept (by with_unfolding_all decide)

/-- C7: a row whose tax fails numeric coercion is not removed (only the
amount decides removal; the tax becomes NaN), and the expense, category,
country and currency cells of every retained row are copied verbatim. -/
theorem report_tax_na_retained (data : Table)
    (expense_col amount_col tax_col category_col country_col currency_col : String)
    (recs : List ExpenseRecord) (row : Row)
    (h : parse_concur_report data expense_col amount_col tax_col category_col country_col currency_col
      = .ok recs)
    (hrow : row ∈ data.rows)
    (ha : toNumeric (getCell row amount_col) ≠ Value.na) :
    ∃ rec ∈ recs,
      rec.amount = toNumeric (getCell row amount_col) ∧
      rec.tax = toNumeric (getCell row tax_col) ∧
      rec.expense = getCell row expense_col ∧
      rec.category = getCell row category_col ∧
      rec.country = getCell row country_col ∧
      rec.currency = getCell row currency_col := by
  unfold parse_concur_report at h
  split at h
  · exact absurd h (by simp)
  · injection h with h2
    refine ⟨mkRecord row expense_col amount_col tax_col category_col country_col currency_col,
      ?_, rfl, rfl, rfl, rfl, rfl, rfl⟩
    rw [← h2]
    exact List.mem_filter.mpr
      ⟨List.mem_map_of_mem _ hrow, by simpa [mkRecord, bne_iff_ne] using ha⟩

theorem valEq_eq_decide (a b : Value) (ha : a ≠ Value.na) :
    valEq a b = decide (a = b) := by
  cases a <;> cases b <;> simp_all [valEq]

theorem partEq_eq_decide (p q : KeyPart) (hp : partNaFree p) :
    partEq p q = decide (p = q) := by
  cases p with
  | pyNone => cases q <;> simp [partEq]
  | val a =>
    have ha : a ≠ Value.na := by
      intro hcon
      exact hp (by rw [hcon])
    cases q <;> simp [partEq, valEq_eq_decide _ _ ha]

theorem keyEq_eq_decide (k q : RateKey) (hk : keyNaFree k) :
    keyEq k q = decide (k = q) := by
  obtain ⟨h1, h2⟩ := hk
  rw [keyEq, partEq_eq_decide _ _ h1, partEq_eq_decide _ _ h2]
  by_cases he1 : k.1 = q.1 <;> by_cases he2 : k.2 = q.2 <;>
    simp [he1, he2, Prod.ext_iff]

theorem keyEq_refl (k : RateKey) (hk : keyNaFree k) : keyEq k k = true := by
  rw [keyEq_eq_decide k k hk]
  simp

theorem normPart_naFree (v : Value) : partNaFree (normPart v) := by
  cases v <;> simp [normPart, isna, partNaFree]

theorem rowKey_naFree (row : Row) (category_col country_col : String) :
    keyNaFree (rowKey row category_col country_col) :=
  ⟨normPart_naFree _, normPart_naFree _⟩

theorem dictInsert_naFree (d : List (RateKey × Value)) (k : RateKey) (v : Value)
    (hd : ∀ e ∈ d, keyNaFree e.1) (hk : keyNaFree k) :
    ∀ e ∈ dictInsert d k v, keyNaFree e.1 := by
  intro e he
  unfold dictInsert at he
  split at he
  · obtain ⟨e0, he0, hrep⟩ := List.mem_map.mp he
    have : e.1 = e0.1 := by
      rw [← hrep]
      split <;> rfl
    rw [this]
    exact hd e0 he0
  · rcases List.mem_append.mp he with h | h
    · exact hd e h
    · simp at h
      rw [h]
      exact hk

theorem dictInsert_pairwise (d : List (RateKey × Value)) (k : RateKey) (v : Value)
    (hd : ∀ e ∈ d, keyNaFree e.1) (_hk : keyNaFree k)
    (hp : List.Pairwise (fun e₁ e₂ => e₁.1 ≠ e₂.1) d) :
    List.Pairwise (fun e₁ e₂ => e₁.1 ≠ e₂.1) (dictInsert d k v) := by
  unfold dictInsert
  split
  · rw [List.pairwise_map]
    refine hp.imp ?_
    intro e₁ e₂ hne
    split <;> split <;> exact hne
  · rename_i hany
    rw [List.pairwise_append]
    refine ⟨hp, by simp, ?_⟩
    intro e he e' he'
    simp at he'
    rw [he']
    have hfalse : keyEq e.1 k = false := by
      by_contra hcon
      exact hany (List.any_eq_true.mpr ⟨e, he, by simpa using hcon⟩)
    rw [keyEq_eq_decide _ _ (hd e he)] at hfalse
    simpa using hfalse

theorem dictGet_map_replace (d : List (RateKey × Value)) (k : RateKey) (v : Value)
    (q : RateKey) :
    dictGet (d.map (fun e => if keyEq e.1 k then (e.1, v) else e)) q =
      match d.find? (fun e => keyEq e.1 q) with
      | some e => some (if keyEq e.1 k then v else e.2)
      | none => none := by
  induction d with
  | nil => rfl
  | cons e d ih =>
    cases hek : keyEq e.1 k <;> cases heq : keyEq e.1 q <;>
      simp [dictGet, List.find?_cons, hek, heq] <;>
      simpa [dictGet] using ih

theorem dictGet_dictInsert (d : List (RateKey × Value)) (k : RateKey) (v : Value)
    (q : RateKey) (hd : ∀ e ∈ d, keyNaFree e.1) (hk : keyNaFree k) :
    dictGet (dictInsert d k v) q = if k = q then some v else dictGet d q := by
  unfold dictInsert
  split
  · rename_i hany
    rw [dictGet_map_replace]
    rcases List.any_eq_true.mp hany with ⟨e0, he0, hkeq⟩
    have he0k : e0.1 = k := by
      have := keyEq_eq_decide e0.1 k (hd e0 he0)
      rw [this] at hkeq
      simpa using hkeq
    by_cases hkq : k = q
    · subst hkq
      have hsome : (d.find? (fun e => keyEq e.1 k)).isSome := by
        refine List.find?_isSome.mpr ⟨e0, he0, hkeq⟩
      obtain ⟨e1, he1⟩ := Option.isSome_iff_exists.mp hsome
      have he1k : keyEq e1.1 k = true := by simpa using List.find?_some he1
      simp [he1, he1k]
    · rw [if_neg hkq]
      unfold dictGet
      cases hfind : d.find? (fun e => keyEq e.1 q) with
      | none => simp
      | some e1 =>
        have he1k : keyEq e1.1 k = false := by
          have he1q := List.find?_some hfind
          rw [keyEq_eq_decide e1.1 q (hd e1 (List.mem_of_find?_eq_some hfind))] at he1q
          rw [keyEq_eq_decide e1.1 k (hd e1 (List.mem_of_find?_eq_some hfind))]
          simp only [decide_eq_true_eq] at he1q
          simp only [he1q, decide_eq_false_iff_not]
          exact fun hcon => hkq hcon.symm
        simp [he1k]
  · rename_i hany
    unfold dictGet
    rw [List.find?_append]
    cases hfind : d.find? (fun e => keyEq e.1 q) with
    | some e1 =>
      have hkq : k ≠ q := by
        intro hcon
        apply hany
        refine List.any_eq_true.mpr ⟨e1, List.mem_of_find?_eq_some hfind, ?_⟩
        have he1q := List.find?_some hfind
        rw [keyEq_eq_decide e1.1 q (hd e1 (List.mem_of_find?_eq_some hfind))] at he1q
        rw [keyEq_eq_decide e1.1 k (hd e1 (List.mem_of_find?_eq_some hfind))]
        simp only [decide_eq_true_eq] at he1q
        simp [he1q, hcon]
      simp [hkq]
    | none =>
      simp only [Option.none_or]
      by_cases hkq : k = q
      · subst hkq
        simp [List.find?, keyEq_refl k hk]
      · have hne : keyEq k q = false := by
          rw [keyEq_eq_decide k q hk]
          simpa using hkq
        simp [List.find?, hne, hkq]

theorem taxStep_ok_elim (cols : List String) (ccol rcol catcol ctycol : String)
    (d : List (RateKey × Value)) (row : Row) (d1 : List (RateKey × Value))
    (h : taxStep cols ccol rcol catcol ctycol d row = .ok d1) :
    d1 = dictInsert d (rowKey row catcol ctycol) (getCell row rcol) := by
  unfold taxStep getCellE at h
  by_cases h1 : ccol ∈ cols <;> by_cases h2 : rcol ∈ cols <;>
    by_cases h3 : catcol ∈ cols <;> by_cases h4 : ctycol ∈ cols <;>
    simp [h1, h2, h3, h4, Bind.bind, Except.bind] at h <;>
    (rw [rowKey]; exact h.symm)

theorem taxFold_characterization (rows : List Row) (cols : List String)
    (ccol rcol catcol ctycol : String) (d cfg : List (RateKey × Value))
    (hd1 : ∀ e ∈ d, keyNaFree e.1)
    (hd2 : List.Pairwise (fun e₁ e₂ => e₁.1 ≠ e₂.1) d)
    (h : List.foldlM (taxStep cols ccol rcol catcol ctycol) d rows = .ok cfg) :
    (∀ e ∈ cfg, keyNaFree e.1) ∧
    List.Pairwise (fun e₁ e₂ => e₁.1 ≠ e₂.1) cfg ∧
    ∀ q : RateKey, dictGet cfg q =
      match rows.reverse.find? (fun row => decide (rowKey row catcol ctycol = q)) with
      | some row => some (getCell row rcol)
      | none => dictGet d q := by
  induction rows generalizing d with
  | nil =>
    simp [List.foldlM, pure, Except.pure] at h
    subst h
    exact ⟨hd1, hd2, fun q => by simp⟩
  | cons row rest ih =>
    rw [List.foldlM_cons] at h
    cases hstep : taxStep cols ccol rcol catcol ctycol d row with
    | error e =>
      rw [hstep] at h
      simp [Bind.bind, Except.bind] at h
    | ok d1 =>
      rw [hstep] at h
      simp only [Bind.bind, Except.bind] at h
      have hins := taxStep_ok_elim cols ccol rcol catcol ctycol d row d1 hstep
      subst hins
      have hna := dictInsert_naFree d (rowKey row catcol ctycol) (getCell row rcol)
        hd1 (rowKey_naFree row catcol ctycol)
      have hpw := dictInsert_pairwise d (rowKey row catcol ctycol) (getCell row rcol)
        hd1 (rowKey_naFree row catcol ctycol) hd2
      obtain ⟨c1, c2, c3⟩ := ih _ hna hpw h
      refine ⟨c1, c2, fun q => ?_⟩
      rw [c3 q, List.reverse_cons, List.find?_append]
      cases hfind : rest.reverse.find? (fun row => decide (rowKey row catcol ctycol = q)) with
      | some r0 => simp
      | none =>
        simp only [Option.none_or]
        rw [dictGet_dictInsert d _ _ q hd1 (rowKey_naFree row catcol ctycol)]
        by_cases hq : rowKey row catcol ctycol = q <;>
          simp [List.find?, hq]

/-- C5: `parse_tax_config` processes rows in source order with
last-write-wins: looking any key up in the resulting dictionary yields
the rate of the last source row carrying that key, and the keys of the
dictionary are unique. -/
theorem rate_table_last_write_wins (data : Table)
    (code_col rate_col category_col country_col : String)
    (cfg : List (RateKey × Value))
    (h : parse_tax_config data code_col rate_col category_col country_col = .ok cfg) :
    List.Pairwise (fun e₁ e₂ => e₁.1 ≠ e₂.1) cfg ∧
    ∀ q : RateKey, dictGet cfg q =
      match data.rows.reverse.find? (fun row => decide (rowKey row category_col country_col = q)) with
      | some row => some (getCell row rate_col)
      | none => none := by
  unfold parse_tax_config at h
  obtain ⟨-, c2, c3⟩ := taxFold_characterization data.rows data.cols code_col rate_col
    category_col country_col [] cfg (by simp) (by simp) h
  refine ⟨c2, fun q => ?_⟩
  rw [c3 q]
  cases data.rows.reverse.find? (fun row => decide (rowKey row category_col country_col = q)) with
  | some r0 => rfl
  | none => rfl

/-- Witness for C5: on a configuration with two (Meals, FR) rows (rates
0.2 then 0.1), the dictionary holds the later rate 0.1. -/
theorem rate_table_last_write_wins_witness :
    dictGet dupConfigDict
      (KeyPart.val (Value.str "Meals"), KeyPart.val (Value.str "FR")) =
      some (Value.num (1 / 10)) := by
  have h := rate_table_last_write_wins dupConfigTable "TaxCode" "TaxRate" "Category" "Country"
    dupConfigDict (by with_unfolding_all decide)
  have h2 := h.2 (KeyPart.val (Value.str "Meals"), KeyPart.val (Value.str "FR"))
  refine h2.trans ?_
  with_unfolding_all decide

theorem taxStep_ok_of_mem (cols : List String) (ccol rcol catcol ctycol : String)
    (d : List (RateKey × Value)) (row : Row)
    (h1 : ccol ∈ cols) (h2 : rcol ∈ cols) (h3 : catcol ∈ cols) (h4 : ctycol ∈ cols) :
    taxStep cols ccol rcol catcol ctycol d row =
      .ok (dictInsert d (rowKey row catcol ctycol) (getCell row rcol)) := by
  simp [taxStep, getCellE, h1, h2, h3, h4, Bind.bind, Except.bind, rowKey]

theorem taxStep_error_of_missing (cols : List String) (ccol rcol catcol ctycol : String)
    (d : List (RateKey × Value)) (row : Row)
    (hmiss : ¬ (ccol ∈ cols ∧ rcol ∈ cols ∧ catcol ∈ cols ∧ ctycol ∈ cols)) :
    ∃ c, taxStep cols ccol rcol catcol ctycol d row = .error c := by
  unfold taxStep getCellE
  by_cases h1 : ccol ∈ cols
  · by_cases h2 : rcol ∈ cols
    · by_cases h3 : catcol ∈ cols
      · by_cases h4 : ctycol ∈ cols
        · exact absurd ⟨h1, h2, h3, h4⟩ hmiss
        · exact ⟨ctycol, by simp [h1, h2, h3, h4, Bind.bind, Except.bind]⟩
      · exact ⟨catcol, by simp [h1, h2, h3, Bind.bind, Except.bind]⟩
    · exact ⟨rcol, by simp [h1, h2, Bind.bind, Except.bind]⟩
  · exact ⟨ccol, by simp [h1, Bind.bind, Except.bind]⟩

theorem taxFold_ok (rows : List Row) (cols : List String)
    (ccol rcol catcol ctycol : String) (d : List (RateKey × Value))
    (h1 : ccol ∈ cols) (h2 : rcol ∈ cols) (h3 : catcol ∈ cols) (h4 : ctycol ∈ cols) :
    ∃ out, List.foldlM (taxStep cols ccol rcol catcol ctycol) d rows = .ok out := by
  induction rows generalizing d with
  | nil => exact ⟨d, by simp [List.foldlM, pure, Except.pure]⟩
  | cons row rest ih =>
    obtain ⟨out, hout⟩ := ih (dictInsert d (rowKey row catcol ctycol) (getCell row rcol))
    refine ⟨out, ?_⟩
    rw [List.foldlM_cons, taxStep_ok_of_mem cols ccol rcol catcol ctycol d row h1 h2 h3 h4]
    simpa [Bind.bind, Except.bind] using hout

/-- C8 (amended): `parse_concur_report` fails with a column error exactly
when one of its six named columns is absent; `parse_tax_config` fails
exactly when one of its four named columns is absent AND the table has
at least one row (column accesses happen inside the row loop, so an
empty table never fails). -/
theorem column_error_characterization (data : Table)
    (expense_col amount_col tax_col category_col country_col currency_col : String)
    (code_col rate_col ccategory_col ccountry_col : String) :
    ((∃ err, parse_concur_report data expense_col amount_col tax_col category_col country_col currency_col
        = .error err) ↔
      ¬ (expense_col ∈ data.cols ∧ amount_col ∈ data.cols ∧ tax_col ∈ data.cols ∧
         category_col ∈ data.cols ∧ country_col ∈ data.cols ∧ currency_col ∈ data.cols)) ∧
    ((∃ err, parse_tax_config data code_col rate_col ccategory_col ccountry_col = .error err) ↔
      (¬ (code_col ∈ data.cols ∧ rate_col ∈ data.cols ∧ ccategory_col ∈ data.cols ∧
          ccountry_col ∈ data.cols) ∧ data.rows ≠ [])) := by
  constructor
  · constructor
    · rintro ⟨err, herr⟩ hall
      obtain ⟨a1, a2, a3, a4, a5, a6⟩ := hall
      unfold parse_concur_report at herr
      split at herr
      · rename_i c hfind
        have hpc := List.find?_some hfind
        have hmem := List.mem_of_find?_eq_some hfind
        simp at hpc hmem
        rcases hmem with h | h | h | h | h | h <;> subst h <;> simp_all
      · exact absurd herr (by simp)
    · intro hmiss
      unfold parse_concur_report
      cases hfind : [expense_col, amount_col, tax_col, category_col, country_col,
          currency_col].find? (fun c => ! data.cols.contains c) with
      | some c => exact ⟨c, rfl⟩
      | none =>
        exfalso
        rw [List.find?_eq_none] at hfind
        apply hmiss
        have h1 := hfind expense_col (by simp)
        have h2 := hfind amount_col (by simp)
        have h3 := hfind tax_col (by simp)
        have h4 := hfind category_col (by simp)
        have h5 := hfind country_col (by simp)
        have h6 := hfind currency_col (by simp)
        simp at h1 h2 h3 h4 h5 h6
        exact ⟨h1, h2, h3, h4, h5, h6⟩
  · constructor
    · rintro ⟨err, herr⟩
      unfold parse_tax_config at herr
      constructor
      · intro hall
        obtain ⟨out, hout⟩ := taxFold_ok data.rows data.cols code_col rate_col
          ccategory_col ccountry_col [] hall.1 hall.2.1 hall.2.2.1 hall.2.2.2
        rw [hout] at herr
        exact absurd herr (by simp)
      · intro hnil
        rw [hnil] at herr
        simp [List.foldlM, pure, Except.pure] at herr
    · rintro ⟨hmiss, hne⟩
      cases hrows : data.rows with
      | nil => exact absurd hrows hne
      | cons row rest =>
        obtain ⟨c, hc⟩ := taxStep_error_of_missing data.cols code_col rate_col
          ccategory_col ccountry_col [] row hmiss
        refine ⟨c, ?_⟩
        unfold parse_tax_config
        rw [hrows, List.foldlM_cons, hc]
        simp [Bind.bind, Except.bind]

/-- Counterexample to C8 as stated: on a table with no rows and no
columns, `parse_tax_config` returns an empty dictionary without error
although its named columns are all absent. -/
theorem tax_config_empty_no_error :
    parse_tax_config { cols := [], rows := [] } "TaxCode" "TaxRate" "Category" "Country" = .ok [] ∧
    "TaxCode" ∉ Table.cols { cols := [], rows := [] } := by
  constructor
  · rfl
  · simp

theorem taxStep_congr (cols : List String) (ccol rcol catcol ctycol : String)
    (d : List (RateKey × Value)) (r₁ r₂ : Row)
    (hag : RowsAgreeExcept ccol r₁ r₂)
    (hr : rcol ≠ ccol) (hcat : catcol ≠ ccol) (hcty : ctycol ≠ ccol) :
    taxStep cols ccol rcol catcol ctycol d r₁ = taxStep cols ccol rcol catcol ctycol d r₂ := by
  unfold taxStep getCellE
  rw [hag rcol hr, hag catcol hcat, hag ctycol hcty]
  by_cases h1 : ccol ∈ cols <;> simp [h1, Bind.bind, Except.bind]

/-- C9: two configuration tables identical except in the values of the
code column produce equal rate dictionaries — the tax code value is read
but never influences the keys or rates. -/
theorem code_column_noninterference (data₁ data₂ : Table)
    (code_col rate_col category_col country_col : String)
    (hcols : data₁.cols = data₂.cols)
    (hrows : List.Forall₂ (RowsAgreeExcept code_col) data₁.rows data₂.rows)
    (hr : rate_col ≠ code_col) (hcat : category_col ≠ code_col) (hcty : country_col ≠ code_col) :
    parse_tax_config data₁ code_col rate_col category_col country_col =
      parse_tax_config data₂ code_col rate_col category_col country_col := by
  unfold parse_tax_config
  rw [← hcols]
  have hgen : ∀ rows₁ rows₂ : List Row, List.Forall₂ (RowsAgreeExcept code_col) rows₁ rows₂ →
      ∀ d, List.foldlM (taxStep data₁.cols code_col rate_col category_col country_col) d rows₁ =
      List.foldlM (taxStep data₁.cols code_col rate_col category_col country_col) d rows₂ := by
    intro rows₁ rows₂ hf
    induction hf with
    | nil => intro d; rfl
    | cons hag hrest ih =>
      intro d
      rw [List.foldlM_cons, List.foldlM_cons,
        taxStep_congr data₁.cols code_col rate_col category_col country_col d _ _ hag hr hcat hcty]
      cases taxStep data₁.cols code_col rate_col category_col country_col d _ with
      | error e => simp [Bind.bind, Except.bind]
      | ok d1 =>
        simp only [Bind.bind, Except.bind]
        exact ih d1
  exact hgen _ _ hrows []

/-- Witness for C9: two one-row tables differing only in the TaxCode
value ("A" versus "B") produce the same dictionary. -/
theorem code_column_noninterference_witness :
    parse_tax_config codeTableA "TaxCode" "TaxRate" "Category" "Country" =
      parse_tax_config codeTableB "TaxCode" "TaxRate" "Category" "Country" := by
  apply code_column_noninterference codeTableA codeTableB "TaxCode" "TaxRate" "Category" "Country"
    rfl ?_ (by decide) (by decide) (by decide)
  refine List.Forall₂.cons ?_ List.Forall₂.nil
  intro c hc
  have hbeq : (c == "TaxCode") = false := beq_eq_false_iff_ne.mpr hc
  simp [getCell, List.lookup, hbeq]

/-- C3 (refuting evaluation): a report row with a blank Category keeps
NaN as its normalized category, and the rate rule stored under
`(None, "DE")` never matches it — the whole pipeline reports a missing
tax code for the row even though its tax equals amount * rate exactly. -/
theorem blank_category_never_matches :
    parse_tax_config blankCatConfig "TaxCode" "TaxRate" "Category" "Country" = .ok blankCatDict ∧
    parse_concur_report blankCatReport "Expense" "Amount" "Tax" "Category" "Country" "Currency" =
      .ok [blankCatRec] ∧
    blankCatRec.category = Value.na ∧
    dictGet blankCatDict (KeyPart.val blankCatRec.category, KeyPart.val blankCatRec.country) = none ∧
    analyze_vat [blankCatRec] blankCatDict = .ok ["Missing tax code for expense: Hotel"] := by
  refine ⟨?_, ?_, rfl, ?_, ?_⟩ <;> with_unfolding_all decide

/-- C6: the retained records appear in source row order (they form a
sublist of the normalized rows), and the issues follow the record order,
records producing no issue contributing nothing (`analyze_vat` outputs
the ordered `filterMap` of the per-record issues). -/
theorem order_preservation (data : Table)
    (expense_col amount_col tax_col category_col country_col currency_col : String)
    (cfg : List (RateKey × Value)) (recs : List ExpenseRecord)
    (h : parse_concur_report data expense_col amount_col tax_col category_col country_col currency_col
      = .ok recs) :
    recs.Sublist (data.rows.map
      (fun row => mkRecord row expense_col amount_col tax_col category_col country_col currency_col)) ∧
    ∀ g : ExpenseRecord → Option String,
      (∀ rec ∈ recs, recordIssue cfg rec = .ok (g rec)) →
      analyze_vat recs cfg = .ok (recs.filterMap g) := by
  constructor
  · unfold parse_concur_report at h
    split at h
    · exact absurd h (by simp)
    · injection h with h2
      rw [← h2]
      exact List.filter_sublist _
  · intro g hg
    clear h
    induction recs with
    | nil => rfl
    | cons rec rest ih =>
      have h1 : recordIssue cfg rec = .ok (g rec) := hg rec (by simp)
      have h2 : analyze_vat rest cfg = .ok (rest.filterMap g) :=
        ih (fun r hr => hg r (by simp [hr]))
      cases hgr : g rec <;>
        simp [analyze_vat, h1, h2, hgr, Bind.bind, Except.bind, List.filterMap_cons]

/-- Witness for C6: on a three-row report (issue row, dropped row,
clean row) the records are a sublist of the normalized rows and exactly
the first record's issue is emitted. -/
theorem order_preservation_witness :
    orderRecs.Sublist (orderTable.rows.map
      (fun row => mkRecord row "Expense" "Amount" "Tax" "Category" "Country" "Currency")) ∧
    analyze_vat orderRecs lodgingCfg = .ok ["Missing tax code for expense: Lunch"] := by
  have h := order_preservation orderTable "Expense" "Amount" "Tax" "Category" "Country" "Currency"
    lodgingCfg orderRecs (by with_unfolding_all decide)
  refine ⟨h.1, ?_⟩
  have h2 := h.2 issueOf (by with_unfolding_all decide)
  refine h2.trans ?_
  with_unfolding_all decide

/-- Witness for C7: the Train row (amount "12.5", tax "abc") is retained
with NaN tax and verbatim text fields. -/
theorem report_tax_na_retained_witness :
    ∃ rec ∈ trainRecs,
      rec.amount = toNumeric (getCell trainRow "Amount") ∧
      rec.tax = toNumeric (getCell trainRow "Tax") ∧
      rec.expense = getCell trainRow "Expense" ∧
      rec.category = getCell trainRow "Category" ∧
      rec.country = getCell trainRow "Country" ∧
      rec.currency = getCell trainRow "Currency" := by
  exact report_tax_na_retained trainTable "Expense" "Amount" "Tax" "Category" "Country" "Currency"
    trainRecs trainRow (by with_unfolding_all decide) (by simp [trainTable])
    (by with_unfolding_all decide)

end ConcurCheck
